import Mathlib

/-!
Shallow embedding of the bounded MCP server pools of this repository
(`src/app/mcp/generic_mcp_server_pool.py` and
`src/app/mcp/mcp_server_stdio_pool.py`), together with theorems settling
the specification claims about them.

Modelling conventions:
- a Server is an opaque identity, modelled as a `Nat`;
- `asyncio.Queue(maxsize)` is modelled by `BQueue` (a list of items plus the
  bound); `put_nowait` returns `none` exactly when the Python call raises
  `asyncio.QueueFull`, and `get_nowait` returns `none` exactly when the queue
  is empty;
- Python exceptions are the inductive type `PyError`; an operation that can
  let an exception escape returns `Except PyError _`;
- `await server.cleanup()` is an external capability that may fail; the
  oracle `fails : Server → Bool` says which servers' cleanup raises.  Every
  operation returns, besides its new state, the list of servers whose
  cleanup capability was invoked during the call (in invocation order);
- `await queue.get()` suspends on an empty queue; `acquire` therefore
  returns `Option`, with `none` meaning "the calling task suspends".
-/

deriving instance DecidableEq for Except

namespace MCPPool

/-- Opaque server identity. The pool never inspects a server beyond
identity comparison (`in` / `remove` on lists) and its cleanup capability. -/
abbrev Server : Type := Nat

/-- Python exception values relevant to the pools.  `valueError` embeds the
`ValueError` of the constructors, `queueFull` embeds `asyncio.QueueFull`,
and `factoryFailure c` stands for an arbitrary exception raised by the
server factory.  The constructors `stateError` and `poolInitFailure` do not
occur anywhere in the code: they model, from the spec's words, the "state
error" of §4.2/§4.4 and the dedicated `PoolInitializationError` wrapper of
§4.1/§7, so that claims about those can be stated and compared with what the
code actually raises. -/
inductive PyError : Type where
  | valueError : PyError
  | queueFull : PyError
  | factoryFailure : Nat → PyError
  | stateError : PyError
  | poolInitFailure : PyError → PyError
deriving DecidableEq, Repr

/-- Embedding of `asyncio.Queue`: the FIFO list of queued items together
with its `maxsize` bound. -/
structure BQueue : Type where
  items : List Server
  maxsize : Nat
deriving DecidableEq, Repr

/-- `queue.put_nowait(s)`: enqueue at the tail if the queue is below its
bound, otherwise `none` (the Python call raises `asyncio.QueueFull`). -/
def BQueue.put_nowait (q : BQueue) (s : Server) : Option BQueue :=
  if q.items.length < q.maxsize then
    some { items := q.items ++ [s], maxsize := q.maxsize }
  else
    none

/-- `queue.get_nowait()`: dequeue from the head, `none` when empty (the
Python call raises `asyncio.QueueEmpty`; `await queue.get()` suspends). -/
def BQueue.get_nowait (q : BQueue) : Option (Server × BQueue) :=
  match q.items with
  | [] => none
  | s :: rest => some (s, { items := rest, maxsize := q.maxsize })

/-- The `while not queue.empty(): queue.get_nowait()` drain loops of both
pools: the queue ends empty, the bound is kept. -/
def BQueue.drain (q : BQueue) : BQueue :=
  { items := [], maxsize := q.maxsize }

/-- `await server.cleanup()` as seen by a `try`/`except` block: `.ok` when
the external disposal succeeds, `.error` when it raises. -/
def cleanupCall (fails : Server → Bool) (s : Server) : Except Unit Unit :=
  if fails s then .error () else .ok ()

/-- The rollback / shutdown loops `for srv in …: try: await srv.cleanup()
except Exception: log`: every server in the list has its cleanup capability
invoked exactly once, a failure is caught and the loop continues with the
rest.  Returns the list of servers whose cleanup was invoked. -/
def cleanupAll (fails : Server → Bool) : List Server → List Server
  | [] => []
  | s :: rest =>
    match cleanupCall fails s with
    | .ok _ => s :: cleanupAll fails rest
    | .error _ => s :: cleanupAll fails rest

/-- State of `GenericMCPServerPool`: `pool_size` is the capacity fixed at
construction, `available_servers` the bounded queue, `all_servers` the
tracked list (Python keeps it as a `List`; membership and removal use
identity). -/
structure GenericMCPServerPool : Type where
  pool_size : Nat
  available_servers : BQueue
  all_servers : List Server
deriving DecidableEq, Repr

/-- `GenericMCPServerPool.__init__`: rejects `pool_size <= 0` with a
`ValueError`, otherwise starts with an empty bounded queue and an empty
tracked list. -/
def GenericMCPServerPool.create (pool_size : Nat) :
    Except PyError GenericMCPServerPool :=
  if pool_size ≤ 0 then
    .error .valueError
  else
    .ok { pool_size := pool_size
          available_servers := { items := [], maxsize := pool_size }
          all_servers := [] }

/-- The freshly constructed pool of capacity `n` (the success case of
`GenericMCPServerPool.create`). -/
def mkGenericPool (n : Nat) : GenericMCPServerPool :=
  { pool_size := n
    available_servers := { items := [], maxsize := n }
    all_servers := [] }

/-- The `for i in range(self.pool_size)` loop of `initialize` in
`GenericMCPServerPool`: call the factory, append the result to
`servers_created_this_attempt`, then `put_nowait` it into the queue.  A
factory failure, or a `QueueFull` from `put_nowait`, escapes the loop (both
are caught by the surrounding `except Exception`).  Returns the outcome,
the created-this-attempt list, and the queue at that point.  The factory is
modelled as a function from the call index (within this call) to its
result. -/
def initLoop (factory : Nat → Except PyError Server) :
    Nat → Nat → List Server → BQueue →
    Except PyError Unit × List Server × BQueue
  | 0, _, created, q => (.ok (), created, q)
  | fuel + 1, i, created, q =>
    match factory i with
    | .error e => (.error e, created, q)
    | .ok s =>
      match q.put_nowait s with
      | none => (.error .queueFull, created ++ [s], q)
      | some q' => initLoop factory fuel (i + 1) (created ++ [s]) q'

/-- `GenericMCPServerPool.initialize`: run the creation loop; on success
extend `all_servers` with every created server; on any exception clean up
every server created this attempt (failures logged, not propagated), drain
the queue, clear `all_servers`, and re-raise the original exception.
Returns (outcome, new state, servers whose cleanup was invoked). -/
def GenericMCPServerPool.init (fails : Server → Bool)
    (p : GenericMCPServerPool) (factory : Nat → Except PyError Server) :
    Except PyError Unit × GenericMCPServerPool × List Server :=
  match initLoop factory p.pool_size 0 [] p.available_servers with
  | (.ok _, created, q) =>
    (.ok (),
     { p with available_servers := q, all_servers := p.all_servers ++ created },
     [])
  | (.error e, created, q) =>
    (.error e,
     { p with available_servers := q.drain, all_servers := [] },
     cleanupAll fails created)

/-- `GenericMCPServerPool.acquire`: `await self.available_servers.get()`.
`none` models the call suspending on an empty queue; otherwise the head
server is removed from the queue and returned; `all_servers` is not
touched. -/
def GenericMCPServerPool.acquire (p : GenericMCPServerPool) :
    Option (Server × GenericMCPServerPool) :=
  match p.available_servers.get_nowait with
  | none => none
  | some (s, q) => some (s, { p with available_servers := q })

/-- The `finally` bookkeeping shared by the unhealthy-release and
full-queue paths: `if server in self.all_servers: self.all_servers.remove(server)`
(Python's `remove` deletes the first occurrence). -/
def GenericMCPServerPool.removeTracked (p : GenericMCPServerPool)
    (s : Server) : GenericMCPServerPool :=
  if s ∈ p.all_servers then
    { p with all_servers := p.all_servers.erase s }
  else
    p

/-- `GenericMCPServerPool.release(server, is_healthy)`: a `None` server is
a logged no-op; a healthy server is `put_nowait` back, with `QueueFull`
caught and handled by cleaning the server up (cleanup failure caught) and
removing it from `all_servers`; an unhealthy server is cleaned up (cleanup
failure caught) and removed from `all_servers`.  The `.error` constructor of
the result is never used: every internal exception is caught, which is
exactly what the claim "never raises to the caller" asserts. -/
def GenericMCPServerPool.release (fails : Server → Bool)
    (p : GenericMCPServerPool) (server : Option Server) (is_healthy : Bool) :
    Except PyError (GenericMCPServerPool × List Server) :=
  match server with
  | none => .ok (p, [])
  | some s =>
    if is_healthy then
      match p.available_servers.put_nowait s with
      | some q => .ok ({ p with available_servers := q }, [])
      | none =>
        match cleanupCall fails s with
        | .ok _ => .ok (p.removeTracked s, [s])
        | .error _ => .ok (p.removeTracked s, [s])
    else
      match cleanupCall fails s with
      | .ok _ => .ok (p.removeTracked s, [s])
      | .error _ => .ok (p.removeTracked s, [s])

/-- The queue-drain step of both `shutdown` implementations:
`while not empty: s = get_nowait(); if s not in acc: acc.append(s)` —
collect the queued servers into the running shutdown list, skipping ones
already present. -/
def drainCollect : List Server → List Server → List Server
  | [], acc => acc
  | s :: rest, acc =>
    if s ∈ acc then drainCollect rest acc else drainCollect rest (acc ++ [s])

/-- `GenericMCPServerPool.shutdown`: copy `all_servers`, clear it, drain
the queue collecting any queued server not already in the copy, invoke
cleanup on each collected server (failures logged, loop continues), and
replace the queue by a fresh empty one of the same bound.  Returns the new
state and the cleanup-invocation list. -/
def GenericMCPServerPool.shutdown (fails : Server → Bool)
    (p : GenericMCPServerPool) : GenericMCPServerPool × List Server :=
  let servers_to_shutdown := drainCollect p.available_servers.items p.all_servers
  ({ pool_size := p.pool_size
     available_servers := { items := [], maxsize := p.pool_size }
     all_servers := [] },
   cleanupAll fails servers_to_shutdown)

/-- State of `MCPServerStdioPool`: same shape as the generic pool
(capacity, bounded queue, tracked list). -/
structure MCPServerStdioPool : Type where
  pool_size : Nat
  available_servers : BQueue
  all_servers : List Server
deriving DecidableEq, Repr

/-- The freshly constructed `MCPServerStdioPool` of capacity `n` (after its
`__init__` resolved a positive pool size). -/
def mkStdioPool (n : Nat) : MCPServerStdioPool :=
  { pool_size := n
    available_servers := { items := [], maxsize := n }
    all_servers := [] }

/-- The `for i in range(self.pool_size)` loop of `initialize` in
`MCPServerStdioPool`: call the factory (`create_employee_info_mcp`), then
`put_nowait` the server, then append it to `self.all_servers` — note that
here `put_nowait` precedes the append, so a `QueueFull` escapes before the
server is tracked.  Both exceptions are caught by the per-iteration
`except Exception`, which rolls back and re-raises.  Returns the outcome,
the accumulated `all_servers` list, and the queue at that point. -/
def stdioInitLoop (factory : Nat → Except PyError Server) :
    Nat → Nat → List Server → BQueue →
    Except PyError Unit × List Server × BQueue
  | 0, _, all, q => (.ok (), all, q)
  | fuel + 1, i, all, q =>
    match factory i with
    | .error e => (.error e, all, q)
    | .ok s =>
      match q.put_nowait s with
      | none => (.error .queueFull, all, q)
      | some q' => stdioInitLoop factory fuel (i + 1) (all ++ [s]) q'

/-- `MCPServerStdioPool.initialize`: run the creation loop, appending each
server to `all_servers` as it is made; on any exception clean up every
server in `all_servers` (failures logged, not propagated), clear it, drain
the queue, and re-raise the original exception.  Returns (outcome, new
state, servers whose cleanup was invoked). -/
def MCPServerStdioPool.init (fails : Server → Bool)
    (p : MCPServerStdioPool) (factory : Nat → Except PyError Server) :
    Except PyError Unit × MCPServerStdioPool × List Server :=
  match stdioInitLoop factory p.pool_size 0 p.all_servers p.available_servers with
  | (.ok _, all, q) =>
    (.ok (), { p with available_servers := q, all_servers := all }, [])
  | (.error e, all, q) =>
    (.error e,
     { p with available_servers := q.drain, all_servers := [] },
     cleanupAll fails all)

/-- `MCPServerStdioPool.shutdown`: drain the queue, appending any queued
server not already in `all_servers` to it; invoke cleanup on every server
of the resulting list (failures logged, loop continues); clear
`all_servers` and replace the queue by a fresh empty one.  Returns the new
state and the cleanup-invocation list. -/
def MCPServerStdioPool.shutdown (fails : Server → Bool)
    (p : MCPServerStdioPool) : MCPServerStdioPool × List Server :=
  let all := drainCollect p.available_servers.items p.all_servers
  ({ pool_size := p.pool_size
     available_servers := { items := [], maxsize := p.pool_size }
     all_servers := [] },
   cleanupAll fails all)

/-- One call a client can make on a `GenericMCPServerPool`, for stating
properties over the pool's whole lifetime. -/
inductive PoolOp : Type where
  | acquireOp : PoolOp
  | releaseOp : Option Server → Bool → PoolOp
  | initOp : (Nat → Except PyError Server) → PoolOp
  | shutdownOp : PoolOp

/-- The state reached after one call: a suspended `acquire` leaves the
state unchanged (the waiting task holds nothing), the other calls apply
their embedding; `release` never raises, so its `.error` branch is
unreachable and maps to the unchanged state. -/
def applyOp (fails : Server → Bool) (p : GenericMCPServerPool) :
    PoolOp → GenericMCPServerPool
  | .acquireOp =>
    match p.acquire with
    | none => p
    | some (_, p') => p'
  | .releaseOp server is_healthy =>
    match p.release fails server is_healthy with
    | .ok (p', _) => p'
    | .error _ => p
  | .initOp factory => (p.init fails factory).2.1
  | .shutdownOp => (p.shutdown fails).1

/-- The state after a sequence of calls. -/
def runOps (fails : Server → Bool) (p : GenericMCPServerPool) :
    List PoolOp → GenericMCPServerPool
  | [] => p
  | op :: ops => runOps fails (applyOp fails p op) ops

/-! ### Helper lemmas -/

theorem put_nowait_eq_some {q : BQueue} (s : Server)
    (h : q.items.length < q.maxsize) :
    q.put_nowait s = some { items := q.items ++ [s], maxsize := q.maxsize } := by
  simp [BQueue.put_nowait, h]

theorem put_nowait_eq_none {q : BQueue} (s : Server)
    (h : ¬ q.items.length < q.maxsize) :
    q.put_nowait s = none := by
  simp [BQueue.put_nowait, h]

/-- The rollback / shutdown cleanup loop invokes the disposal capability on
exactly the servers of its input list, in order, whatever the set of
servers whose cleanup fails: a failure is caught and does not stop the
loop. -/
theorem cleanupAll_eq (fails : Server → Bool) (l : List Server) :
    cleanupAll fails l = l := by
  induction l with
  | nil => rfl
  | cons s rest ih =>
    unfold cleanupAll cleanupCall
    cases h : fails s <;> simp [h, ih]

/-- The servers produced by factory calls `start, start+1, …, start+m-1`,
reading the factory's successful results through `g`. -/
def createdFrom (g : Nat → Server) (start m : Nat) : List Server :=
  (List.range m).map fun j => g (start + j)

theorem createdFrom_succ (g : Nat → Server) (start m : Nat) :
    createdFrom g start (m + 1) = g start :: createdFrom g (start + 1) m := by
  simp only [createdFrom, List.range_succ_eq_map, List.map_cons, List.map_map]
  rw [Nat.add_zero]
  congr 1
  apply List.map_congr_left
  intro j _
  simp only [Function.comp]
  congr 1
  omega

theorem createdFrom_length (g : Nat → Server) (start m : Nat) :
    (createdFrom g start m).length = m := by
  simp [createdFrom]

/-- If the first `m` factory calls (at indices `start, …, start+m-1`)
succeed and the queue has room for `m` more servers, the creation loop of
`GenericMCPServerPool.initialize` succeeds, appending the `m` created
servers to the created-this-attempt list and enqueueing them in order. -/
theorem initLoop_ok (f : Nat → Except PyError Server) (g : Nat → Server) :
    ∀ (m start : Nat) (created : List Server) (q : BQueue),
      (∀ j, j < m → f (start + j) = .ok (g (start + j))) →
      q.items.length + m ≤ q.maxsize →
      initLoop f m start created q =
        (.ok (), created ++ createdFrom g start m,
         { items := q.items ++ createdFrom g start m, maxsize := q.maxsize }) := by
  intro m
  induction m with
  | zero =>
    intro start created q _ _
    simp [initLoop, createdFrom]
  | succ m ih =>
    intro start created q hok hlen
    have h0 : f start = .ok (g start) := by
      have := hok 0 (Nat.succ_pos m)
      rwa [Nat.add_zero] at this
    have hg0 : g (start + 0) = g start := by rw [Nat.add_zero]
    have hput := put_nowait_eq_some (q := q) (g start) (by omega)
    have hrec := ih (start + 1) (created ++ [g start])
      { items := q.items ++ [g start], maxsize := q.maxsize }
      (by
        intro j hj
        have := hok (j + 1) (by omega)
        rwa [show start + (j + 1) = start + 1 + j by omega] at this)
      (by simp; omega)
    simp only [initLoop, h0, hput, hrec, createdFrom_succ]
    simp

/-- If the first `m` factory calls succeed, the `m+1`-st fails with `e`,
the loop has fuel for it and the queue has room for the `m` created
servers, the creation loop stops with `e`, having created and enqueued
exactly those `m` servers. -/
theorem initLoop_fail (f : Nat → Except PyError Server) (g : Nat → Server)
    (e : PyError) :
    ∀ (m fuel start : Nat) (created : List Server) (q : BQueue),
      m < fuel →
      (∀ j, j < m → f (start + j) = .ok (g (start + j))) →
      f (start + m) = .error e →
      q.items.length + m ≤ q.maxsize →
      initLoop f fuel start created q =
        (.error e, created ++ createdFrom g start m,
         { items := q.items ++ createdFrom g start m, maxsize := q.maxsize }) := by
  intro m
  induction m with
  | zero =>
    intro fuel start created q hfuel _ hfail _
    match fuel, hfuel with
    | fuel + 1, _ =>
      rw [Nat.add_zero] at hfail
      simp [initLoop, hfail, createdFrom]
  | succ m ih =>
    intro fuel start created q hfuel hok hfail hlen
    match fuel, hfuel with
    | fuel + 1, hfuel =>
      have h0 : f start = .ok (g start) := by
        have := hok 0 (Nat.succ_pos m)
        rwa [Nat.add_zero] at this
      have hput := put_nowait_eq_some (q := q) (g start) (by omega)
      have hrec := ih fuel (start + 1) (created ++ [g start])
        { items := q.items ++ [g start], maxsize := q.maxsize }
        (by omega)
        (by
          intro j hj
          have := hok (j + 1) (by omega)
          rwa [show start + (j + 1) = start + 1 + j by omega] at this)
        (by
          have := hfail
          rwa [show start + (m + 1) = start + 1 + m by omega] at this)
        (by simp; omega)
      simp only [initLoop, h0, hput, hrec, createdFrom_succ]
      simp

/-- Success spec of the creation loop of `MCPServerStdioPool.initialize`:
same shape as `initLoop_ok` (the two loops differ only in their
`QueueFull` bookkeeping, which a run with enough queue room never hits). -/
theorem stdioInitLoop_ok (f : Nat → Except PyError Server) (g : Nat → Server) :
    ∀ (m start : Nat) (all : List Server) (q : BQueue),
      (∀ j, j < m → f (start + j) = .ok (g (start + j))) →
      q.items.length + m ≤ q.maxsize →
      stdioInitLoop f m start all q =
        (.ok (), all ++ createdFrom g start m,
         { items := q.items ++ createdFrom g start m, maxsize := q.maxsize }) := by
  intro m
  induction m with
  | zero =>
    intro start all q _ _
    simp [stdioInitLoop, createdFrom]
  | succ m ih =>
    intro start all q hok hlen
    have h0 : f start = .ok (g start) := by
      have := hok 0 (Nat.succ_pos m)
      rwa [Nat.add_zero] at this
    have hput := put_nowait_eq_some (q := q) (g start) (by omega)
    have hrec := ih (start + 1) (all ++ [g start])
      { items := q.items ++ [g start], maxsize := q.maxsize }
      (by
        intro j hj
        have := hok (j + 1) (by omega)
        rwa [show start + (j + 1) = start + 1 + j by omega] at this)
      (by simp; omega)
    simp only [stdioInitLoop, h0, hput, hrec, createdFrom_succ]
    simp

/-- Failure spec of the creation loop of `MCPServerStdioPool.initialize`:
after `m` successes the failing factory call leaves exactly the `m`
created servers accumulated in `all_servers` and enqueued. -/
theorem stdioInitLoop_fail (f : Nat → Except PyError Server) (g : Nat → Server)
    (e : PyError) :
    ∀ (m fuel start : Nat) (all : List Server) (q : BQueue),
      m < fuel →
      (∀ j, j < m → f (start + j) = .ok (g (start + j))) →
      f (start + m) = .error e →
      q.items.length + m ≤ q.maxsize →
      stdioInitLoop f fuel start all q =
        (.error e, all ++ createdFrom g start m,
         { items := q.items ++ createdFrom g start m, maxsize := q.maxsize }) := by
  intro m
  induction m with
  | zero =>
    intro fuel start all q hfuel _ hfail _
    match fuel, hfuel with
    | fuel + 1, _ =>
      rw [Nat.add_zero] at hfail
      simp [stdioInitLoop, hfail, createdFrom]
  | succ m ih =>
    intro fuel start all q hfuel hok hfail hlen
    match fuel, hfuel with
    | fuel + 1, hfuel =>
      have h0 : f start = .ok (g start) := by
        have := hok 0 (Nat.succ_pos m)
        rwa [Nat.add_zero] at this
      have hput := put_nowait_eq_some (q := q) (g start) (by omega)
      have hrec := ih fuel (start + 1) (all ++ [g start])
        { items := q.items ++ [g start], maxsize := q.maxsize }
        (by omega)
        (by
          intro j hj
          have := hok (j + 1) (by omega)
          rwa [show start + (j + 1) = start + 1 + j by omega] at this)
        (by
          have := hfail
          rwa [show start + (m + 1) = start + 1 + m by omega] at this)
        (by simp; omega)
      simp only [stdioInitLoop, h0, hput, hrec, createdFrom_succ]
      simp

/-- Collecting the queue into the shutdown list preserves membership of
servers already collected. -/
theorem drainCollect_mem {a : Server} :
    ∀ (items acc : List Server), a ∈ acc → a ∈ drainCollect items acc := by
  intro items
  induction items with
  | nil => intro acc h; exact h
  | cons s rest ih =>
    intro acc h
    unfold drainCollect
    by_cases hs : s ∈ acc
    · simp only [hs, if_pos]
      exact ih acc h
    · simp only [hs, if_neg, not_false_iff]
      exact ih (acc ++ [s]) (List.mem_append_left _ h)

/-- Collecting the queue into the shutdown list keeps the list free of
duplicates: a queued server already present is skipped. -/
theorem drainCollect_nodup :
    ∀ (items acc : List Server), acc.Nodup → (drainCollect items acc).Nodup := by
  intro items
  induction items with
  | nil => intro acc h; exact h
  | cons s rest ih =>
    intro acc h
    unfold drainCollect
    by_cases hs : s ∈ acc
    · simp only [hs, if_pos]
      exact ih acc h
    · simp only [hs, if_neg, not_false_iff]
      refine ih (acc ++ [s]) ?_
      rw [List.nodup_append]
      exact ⟨h, List.nodup_singleton s, by simpa using hs⟩

theorem createdFrom_zero_start (g : Nat → Server) (m : Nat) :
    createdFrom g 0 m = (List.range m).map g := by
  unfold createdFrom
  apply List.map_congr_left
  intro j _
  rw [Nat.zero_add]

/-! ### Concrete instances used by witnesses and counterexamples -/

/-- An always-succeeding factory whose i-th call yields server `i`. -/
def okFactory : Nat → Except PyError Server := fun i => .ok i

/-- A factory whose first call succeeds (server `0`) and whose second call
fails. -/
def failFactory : Nat → Except PyError Server := fun i =>
  if i < 1 then .ok i else .error (.factoryFailure 3)

/-- A factory whose first call already fails. -/
def failFactory7 : Nat → Except PyError Server := fun _ =>
  .error (.factoryFailure 7)

/-- The cleanup oracle under which every disposal succeeds. -/
def noCleanupFail : Server → Bool := fun _ => false

/-! ### Claim theorems -/

/-- C2: for every capacity `n > 0` and an always-succeeding factory, after
`initialize()` returns successfully the available queue holds exactly the
`n` servers produced by the `n` factory calls (in creation order), the
tracked list equals those same servers, and both have size `n`. -/
theorem C2_init_success (n : Nat) (g : Nat → Server)
    (f : Nat → Except PyError Server) (fails : Server → Bool)
    (_hn : 0 < n) (hok : ∀ i, i < n → f i = .ok (g i)) :
    ((mkGenericPool n).init fails f).1 = .ok () ∧
    ((mkGenericPool n).init fails f).2.1.available_servers.items =
      (List.range n).map g ∧
    ((mkGenericPool n).init fails f).2.1.all_servers = (List.range n).map g ∧
    ((mkGenericPool n).init fails f).2.1.available_servers.items.length = n ∧
    ((mkGenericPool n).init fails f).2.1.all_servers.length = n := by
  have h := initLoop_ok f g n 0 [] { items := [], maxsize := n }
    (by intro j hj; simpa using hok j hj) (by simp)
  simp only [GenericMCPServerPool.init, mkGenericPool] at *
  rw [h, createdFrom_zero_start]
  simp

/-- Witness for C2 at capacity 2 with the identity factory. -/
theorem C2_init_success_witness :
    ((mkGenericPool 2).init noCleanupFail okFactory).1 = .ok () ∧
    ((mkGenericPool 2).init noCleanupFail okFactory).2.1.all_servers.length = 2 := by
  have h := C2_init_success 2 (fun i => i) okFactory noCleanupFail
    (by decide) (fun i _ => rfl)
  exact ⟨h.1, h.2.2.2.2⟩

/-- C1: if the factory fails on the k-th of `capacity = n` calls during
`initialize()`, then in both pool implementations the `k−1` servers created
during the attempt each have their cleanup capability invoked exactly once,
the available queue ends empty, and the tracked list ends empty. -/
theorem C1_initFail_rollback (n k : Nat) (g : Nat → Server) (e : PyError)
    (f : Nat → Except PyError Server) (fails : Server → Bool)
    (hk : 1 ≤ k) (hkn : k ≤ n)
    (hok : ∀ i, i < k - 1 → f i = .ok (g i))
    (hfail : f (k - 1) = .error e)
    (hinj : ∀ i, i < k - 1 → ∀ j, j < k - 1 → g i = g j → i = j) :
    (((mkGenericPool n).init fails f).1 = .error e ∧
     ((mkGenericPool n).init fails f).2.1.available_servers.items = [] ∧
     ((mkGenericPool n).init fails f).2.1.all_servers = [] ∧
     ((mkGenericPool n).init fails f).2.2 = (List.range (k - 1)).map g ∧
     ((mkGenericPool n).init fails f).2.2.length = k - 1 ∧
     (∀ i, i < k - 1 → ((mkGenericPool n).init fails f).2.2.count (g i) = 1)) ∧
    (((mkStdioPool n).init fails f).1 = .error e ∧
     ((mkStdioPool n).init fails f).2.1.available_servers.items = [] ∧
     ((mkStdioPool n).init fails f).2.1.all_servers = [] ∧
     ((mkStdioPool n).init fails f).2.2 = (List.range (k - 1)).map g ∧
     ((mkStdioPool n).init fails f).2.2.length = k - 1 ∧
     (∀ i, i < k - 1 → ((mkStdioPool n).init fails f).2.2.count (g i) = 1)) := by
  have hnodup : ((List.range (k - 1)).map g).Nodup := by
    refine List.Nodup.map_on ?_ (List.nodup_range (k - 1))
    intro x hx y hy hxy
    exact hinj x (List.mem_range.mp hx) y (List.mem_range.mp hy) hxy
  have hcount : ∀ i, i < k - 1 → ((List.range (k - 1)).map g).count (g i) = 1 := by
    intro i hi
    exact List.count_eq_one_of_mem hnodup
      (List.mem_map_of_mem g (List.mem_range.mpr hi))
  have hg := initLoop_fail f g e (k - 1) n 0 [] { items := [], maxsize := n }
    (by omega) (by intro j hj; simpa using hok j hj)
    (by simpa using hfail) (by simp; omega)
  have hs := stdioInitLoop_fail f g e (k - 1) n 0 [] { items := [], maxsize := n }
    (by omega) (by intro j hj; simpa using hok j hj)
    (by simpa using hfail) (by simp; omega)
  constructor
  · simp only [GenericMCPServerPool.init, mkGenericPool] at *
    rw [hg, createdFrom_zero_start]
    simp only [List.nil_append, BQueue.drain, cleanupAll_eq]
    refine ⟨?_, ?_, ?_, ?_, ?_, ?_⟩ <;> first | exact hcount | trivial | simp
  · simp only [MCPServerStdioPool.init, mkStdioPool] at *
    rw [hs, createdFrom_zero_start]
    simp only [List.nil_append, BQueue.drain, cleanupAll_eq]
    refine ⟨?_, ?_, ?_, ?_, ?_, ?_⟩ <;> first | exact hcount | trivial | simp

/-- Witness for C1 at capacity 2 with a factory failing on the 2nd call:
in both pools exactly server 0 is cleaned up. -/
theorem C1_initFail_rollback_witness :
    ((mkGenericPool 2).init noCleanupFail failFactory).2.2 = [0] ∧
    ((mkStdioPool 2).init noCleanupFail failFactory).2.2 = [0] := by
  have h := C1_initFail_rollback 2 2 (fun i => i) (.factoryFailure 3)
    failFactory noCleanupFail (by decide) (by decide) (by decide) (by decide)
    (by decide)
  exact ⟨h.1.2.2.2.1.trans (by decide), h.2.2.2.2.1.trans (by decide)⟩

/-- C6 counterexample: on a capacity-1 pool whose factory fails
immediately, `initialize()` propagates the original factory exception
itself, not a dedicated wrapper: the code's bare `raise` re-raises the
factory error, and no `PoolInitializationError` type exists in the code
(the `PyError.poolInitFailure` constructor models the spec's wrapper for
comparison only). -/
theorem C6_counterexample :
    ((mkGenericPool 1).init noCleanupFail failFactory7).1 =
      .error (.factoryFailure 7) ∧
    ((mkGenericPool 1).init noCleanupFail failFactory7).1 ≠
      .error (.poolInitFailure (.factoryFailure 7)) := by
  exact ⟨rfl, by decide⟩

/-- C6 amended: for every factory failure during `initialize()`, the error
that propagates to the caller is the original factory error itself,
re-raised unwrapped (the code has no dedicated initialization-error
type). -/
theorem C6_amended_raises_original (n k : Nat) (g : Nat → Server)
    (e : PyError) (f : Nat → Except PyError Server) (fails : Server → Bool)
    (hk : 1 ≤ k) (hkn : k ≤ n)
    (hok : ∀ i, i < k - 1 → f i = .ok (g i))
    (hfail : f (k - 1) = .error e) :
    ((mkGenericPool n).init fails f).1 = .error e := by
  have hg := initLoop_fail f g e (k - 1) n 0 [] { items := [], maxsize := n }
    (by omega) (by intro j hj; simpa using hok j hj)
    (by simpa using hfail) (by simp; omega)
  simp only [GenericMCPServerPool.init, mkGenericPool] at *
  rw [hg]

/-- Witness for the amended C6 at capacity 2 with a factory failing on the
2nd call. -/
theorem C6_amended_raises_original_witness :
    ((mkGenericPool 2).init noCleanupFail failFactory).1 =
      .error (.factoryFailure 3) :=
  C6_amended_raises_original 2 2 (fun i => i) (.factoryFailure 3)
    failFactory noCleanupFail (by decide) (by decide) (by decide) (by decide)

/-- The unhealthy-release and full-queue paths of `release` both end in
the same caught-cleanup-then-remove bookkeeping, whatever the cleanup
outcome. -/
theorem release_unhealthy_eq (fails : Server → Bool)
    (p : GenericMCPServerPool) (s : Server) :
    p.release fails (some s) false = .ok (p.removeTracked s, [s]) := by
  unfold GenericMCPServerPool.release
  cases hc : cleanupCall fails s <;> simp [hc]

/-- A healthy release into a queue with room enqueues the server at the
tail and touches nothing else — in particular `all_servers` is not
consulted. -/
theorem release_healthy_room (fails : Server → Bool)
    (p : GenericMCPServerPool) (s : Server)
    (hroom : p.available_servers.items.length < p.available_servers.maxsize) :
    p.release fails (some s) true =
      .ok ({ p with available_servers :=
              { items := p.available_servers.items ++ [s],
                maxsize := p.available_servers.maxsize } }, []) := by
  simp only [GenericMCPServerPool.release, put_nowait_eq_some s hroom, if_true]

/-- A healthy release into a full queue takes the `QueueFull` path:
cleanup (caught) and removal from `all_servers`. -/
theorem release_healthy_full (fails : Server → Bool)
    (p : GenericMCPServerPool) (s : Server)
    (hfull : ¬ p.available_servers.items.length < p.available_servers.maxsize) :
    p.release fails (some s) true = .ok (p.removeTracked s, [s]) := by
  simp only [GenericMCPServerPool.release, put_nowait_eq_none s hfull]
  cases hc : cleanupCall fails s <;> simp [hc]

/-- `release` always returns normally: every branch yields `.ok`. -/
theorem release_total (fails : Server → Bool) (p : GenericMCPServerPool)
    (server : Option Server) (is_healthy : Bool) :
    ∃ out, p.release fails server is_healthy = .ok out := by
  rcases server with _ | s
  · exact ⟨(p, []), rfl⟩
  · rcases is_healthy with _ | _
    · exact ⟨(p.removeTracked s, [s]), release_unhealthy_eq fails p s⟩
    · by_cases hroom :
        p.available_servers.items.length < p.available_servers.maxsize
      · exact ⟨_, release_healthy_room fails p s hroom⟩
      · exact ⟨(p.removeTracked s, [s]), release_healthy_full fails p s hroom⟩

/-- `removeTracked` only touches `all_servers`. -/
theorem removeTracked_available (p : GenericMCPServerPool) (s : Server) :
    (p.removeTracked s).available_servers = p.available_servers := by
  unfold GenericMCPServerPool.removeTracked
  split <;> rfl

/-- `removeTracked` keeps `pool_size`. -/
theorem removeTracked_pool_size (p : GenericMCPServerPool) (s : Server) :
    (p.removeTracked s).pool_size = p.pool_size := by
  unfold GenericMCPServerPool.removeTracked
  split <;> rfl

/-- On a tracked server, `removeTracked` erases its first occurrence. -/
theorem removeTracked_mem (p : GenericMCPServerPool) (s : Server)
    (h : s ∈ p.all_servers) :
    (p.removeTracked s).all_servers = p.all_servers.erase s := by
  unfold GenericMCPServerPool.removeTracked
  rw [if_pos h]

/-- C7: for a server `s` that the pool tracks and that is currently lent
out (obtained from `acquire()`, hence not in the available queue),
`release(s, healthy=false)` invokes its cleanup capability exactly once,
removes it from the tracked list (shrinking it by one), leaves the
available queue untouched (so `s` is never re-enqueued), and creates no
replacement server. -/
theorem C7_unhealthy_release_removes (fails : Server → Bool)
    (p : GenericMCPServerPool) (s : Server)
    (hmem : s ∈ p.all_servers) (hout : s ∉ p.available_servers.items) :
    ∃ p', p.release fails (some s) false = .ok (p', [s]) ∧
      p'.all_servers = p.all_servers.erase s ∧
      p'.all_servers.length + 1 = p.all_servers.length ∧
      p'.available_servers = p.available_servers ∧
      s ∉ p'.available_servers.items := by
  refine ⟨p.removeTracked s, release_unhealthy_eq fails p s, ?_, ?_, ?_, ?_⟩
  · exact removeTracked_mem p s hmem
  · rw [removeTracked_mem p s hmem]
    exact List.length_erase_add_one hmem
  · exact removeTracked_available p s
  · rw [removeTracked_available p s]
    exact hout

/-- Witness for C7: capacity-2 pool tracking servers 0 and 1, server 0
lent out, released unhealthy. -/
theorem C7_unhealthy_release_removes_witness :
    ∃ p', GenericMCPServerPool.release noCleanupFail
        { pool_size := 2
          available_servers := { items := [1], maxsize := 2 }
          all_servers := [0, 1] } (some 0) false = .ok (p', [0]) ∧
      p'.all_servers = [1] := by
  obtain ⟨p', h1, h2, _, _, _⟩ := C7_unhealthy_release_removes noCleanupFail
    { pool_size := 2
      available_servers := { items := [1], maxsize := 2 }
      all_servers := [0, 1] } 0 (by decide) (by decide)
  exact ⟨p', h1, h2.trans (by decide)⟩

/-- C8: `release` never raises to the caller: every argument combination
returns normally; a `None` server is a pure no-op; a healthy release into
an already-full queue is absorbed by disposing the server and removing it
from the tracked list instead of raising; and the result never depends on
whether the server's own cleanup call fails (disposal errors are caught). -/
theorem C8_release_never_raises (fails fails2 : Server → Bool)
    (p : GenericMCPServerPool) (server : Option Server) (is_healthy : Bool)
    (s : Server) :
    (∃ out, p.release fails server is_healthy = .ok out) ∧
    p.release fails none is_healthy = .ok (p, []) ∧
    (¬ p.available_servers.items.length < p.available_servers.maxsize →
      p.release fails (some s) true = .ok (p.removeTracked s, [s])) ∧
    p.release fails server is_healthy = p.release fails2 server is_healthy := by
  refine ⟨release_total fails p server is_healthy, rfl,
    release_healthy_full fails p s, ?_⟩
  rcases server with _ | t
  · rfl
  · rcases is_healthy with _ | _
    · rw [release_unhealthy_eq, release_unhealthy_eq]
    · by_cases hroom :
        p.available_servers.items.length < p.available_servers.maxsize
      · rw [release_healthy_room fails p t hroom,
          release_healthy_room fails2 p t hroom]
      · rw [release_healthy_full fails p t hroom,
          release_healthy_full fails2 p t hroom]

/-- Witness for C8 on a full capacity-1 pool, with a cleanup oracle that
fails on every server against one that never fails. -/
theorem C8_release_never_raises_witness :
    GenericMCPServerPool.release (fun _ => true)
        { pool_size := 1
          available_servers := { items := [5], maxsize := 1 }
          all_servers := [5] } (some 5) true =
      .ok ({ pool_size := 1
             available_servers := { items := [5], maxsize := 1 }
             all_servers := [] }, [5]) := by
  have h := (C8_release_never_raises (fun _ => true) noCleanupFail
    { pool_size := 1
      available_servers := { items := [5], maxsize := 1 }
      all_servers := [5] } (some 5) true 5).2.2.1 (by decide)
  exact h.trans (by decide)

/-- C9: acquiring the head server of a non-empty queue and immediately
releasing it healthy restores the queue size and leaves the tracked list
unchanged throughout. The queue-bound hypothesis is the bound `put_nowait`
itself maintains (see C5's amended theorem). -/
theorem C9_acquire_release_roundtrip (fails : Server → Bool)
    (p : GenericMCPServerPool) (s : Server) (rest : List Server)
    (hq : p.available_servers.items = s :: rest)
    (hinv : p.available_servers.items.length ≤ p.available_servers.maxsize) :
    ∃ p1 p2,
      p.acquire = some (s, p1) ∧
      p1.all_servers = p.all_servers ∧
      p1.release fails (some s) true = .ok (p2, []) ∧
      p2.available_servers.items.length = p.available_servers.items.length ∧
      p2.all_servers = p.all_servers := by
  have hrest : rest.length + 1 ≤ p.available_servers.maxsize := by
    rw [hq] at hinv
    simpa using hinv
  refine ⟨{ p with available_servers :=
      { items := rest, maxsize := p.available_servers.maxsize } },
    { p with available_servers :=
      { items := rest ++ [s], maxsize := p.available_servers.maxsize } },
    ?_, rfl, ?_, ?_, rfl⟩
  · unfold GenericMCPServerPool.acquire BQueue.get_nowait
    rw [hq]
  · exact release_healthy_room fails _ s (by simpa using hrest)
  · rw [hq]
    simp

/-- Witness for C9 on a freshly initialized capacity-2 pool. -/
theorem C9_acquire_release_roundtrip_witness :
    ∃ p1 p2,
      GenericMCPServerPool.acquire
        { pool_size := 2
          available_servers := { items := [0, 1], maxsize := 2 }
          all_servers := [0, 1] } = some (0, p1) ∧
      p1.release noCleanupFail (some 0) true = .ok (p2, []) ∧
      p2.available_servers.items.length = 2 := by
  obtain ⟨p1, p2, h1, _, h3, h4, _⟩ := C9_acquire_release_roundtrip noCleanupFail
    { pool_size := 2
      available_servers := { items := [0, 1], maxsize := 2 }
      all_servers := [0, 1] } 0 [1] rfl (by decide)
  exact ⟨p1, p2, h1, h3, h4.trans (by decide)⟩

/-- C10 (implicit): `release(server, healthy=true)` performs no membership
check against the tracked list when the queue has room — any server
object, including one never obtained from this pool, is enqueued and the
tracked list is left unchanged; only when the queue is already full does
the anomaly path (dispose, remove-if-tracked) run. -/
theorem C10_no_membership_check (fails : Server → Bool)
    (p : GenericMCPServerPool) (s : Server) :
    (p.available_servers.items.length < p.available_servers.maxsize →
      p.release fails (some s) true =
        .ok ({ p with available_servers :=
                { items := p.available_servers.items ++ [s],
                  maxsize := p.available_servers.maxsize } }, [])) ∧
    (¬ p.available_servers.items.length < p.available_servers.maxsize →
      p.release fails (some s) true = .ok (p.removeTracked s, [s])) :=
  ⟨release_healthy_room fails p s, release_healthy_full fails p s⟩

/-- Witness for C10: a foreign server (7, never tracked) healthily
released into a capacity-2 pool with room is simply enqueued, with the
tracked list untouched. -/
theorem C10_no_membership_check_witness :
    GenericMCPServerPool.release noCleanupFail
        { pool_size := 2
          available_servers := { items := [0], maxsize := 2 }
          all_servers := [0, 1] } (some 7) true =
      .ok ({ pool_size := 2
             available_servers := { items := [0, 7], maxsize := 2 }
             all_servers := [0, 1] }, []) := by
  have h := (C10_no_membership_check noCleanupFail
    { pool_size := 2
      available_servers := { items := [0], maxsize := 2 }
      all_servers := [0, 1] } 7).1 (by decide)
  exact h.trans (by decide)

/-- C4: `shutdown()` invokes the cleanup capability exactly once on every
server tracked at the time of the call — whether it sits in the available
queue or is lent out — in both pool implementations; one failing disposal
never changes the outcome (the result is the same under every cleanup
oracle); afterwards the tracked list and the available queue are both
empty. -/
theorem C4_shutdown_disposes_all (fails fails2 : Server → Bool)
    (p : GenericMCPServerPool) (q : MCPServerStdioPool)
    (hp : p.all_servers.Nodup) (hqn : q.all_servers.Nodup) :
    ((∀ s, s ∈ p.all_servers → (p.shutdown fails).2.count s = 1) ∧
     (p.shutdown fails).1.all_servers = [] ∧
     (p.shutdown fails).1.available_servers.items = [] ∧
     p.shutdown fails = p.shutdown fails2) ∧
    ((∀ s, s ∈ q.all_servers → (q.shutdown fails).2.count s = 1) ∧
     (q.shutdown fails).1.all_servers = [] ∧
     (q.shutdown fails).1.available_servers.items = [] ∧
     q.shutdown fails = q.shutdown fails2) := by
  constructor
  · refine ⟨?_, rfl, rfl, ?_⟩
    · intro s hs
      show (cleanupAll fails
        (drainCollect p.available_servers.items p.all_servers)).count s = 1
      rw [cleanupAll_eq]
      exact List.count_eq_one_of_mem (drainCollect_nodup _ _ hp)
        (drainCollect_mem _ _ hs)
    · simp only [GenericMCPServerPool.shutdown, cleanupAll_eq]
  · refine ⟨?_, rfl, rfl, ?_⟩
    · intro s hs
      show (cleanupAll fails
        (drainCollect q.available_servers.items q.all_servers)).count s = 1
      rw [cleanupAll_eq]
      exact List.count_eq_one_of_mem (drainCollect_nodup _ _ hqn)
        (drainCollect_mem _ _ hs)
    · simp only [MCPServerStdioPool.shutdown, cleanupAll_eq]

/-- Witness for C4 on capacity-2 pools tracking servers 0 (lent out) and 1
(in the queue): both get exactly one cleanup invocation. -/
theorem C4_shutdown_disposes_all_witness :
    (GenericMCPServerPool.shutdown noCleanupFail
      { pool_size := 2
        available_servers := { items := [1], maxsize := 2 }
        all_servers := [0, 1] }).2.count 0 = 1 ∧
    (GenericMCPServerPool.shutdown noCleanupFail
      { pool_size := 2
        available_servers := { items := [1], maxsize := 2 }
        all_servers := [0, 1] }).2.count 1 = 1 ∧
    (MCPServerStdioPool.shutdown noCleanupFail
      { pool_size := 2
        available_servers := { items := [1], maxsize := 2 }
        all_servers := [0, 1] }).2.count 0 = 1 := by
  have h := C4_shutdown_disposes_all noCleanupFail (fun _ => true)
    { pool_size := 2
      available_servers := { items := [1], maxsize := 2 }
      all_servers := [0, 1] }
    { pool_size := 2
      available_servers := { items := [1], maxsize := 2 }
      all_servers := [0, 1] }
    (by decide) (by decide)
  exact ⟨h.1.1 0 (by decide), h.1.1 1 (by decide), h.2.1 0 (by decide)⟩

/-- The capacity-1 pool after a successful initialization followed by
`shutdown()`. -/
def postShutdownPool : GenericMCPServerPool :=
  ((((mkGenericPool 1).init noCleanupFail okFactory).2.1).shutdown
    noCleanupFail).1

/-- C3 counterexample: on the concrete capacity-1 pool that has been
initialized and then shut down, no subsequent call fails with a state
error: `acquire()` suspends on the emptied queue (the embedding returns
`none`, i.e. the caller waits forever) instead of raising; `initialize()`
simply re-runs and succeeds; `release()` runs its normal logic and returns
normally.  The code keeps no lifecycle state at all, so the state error the
claim requires does not exist. -/
theorem C3_counterexample :
    postShutdownPool.acquire = none ∧
    (postShutdownPool.init noCleanupFail okFactory).1 = .ok () ∧
    (postShutdownPool.init noCleanupFail okFactory).1 ≠ .error .stateError ∧
    (postShutdownPool.release noCleanupFail (some 0) true).isOk = true := by
  exact ⟨rfl, rfl, by decide, rfl⟩

/-- C3 amended: after `shutdown()` the tracked list and the available
queue are empty, but subsequent calls do not fail with a state error:
`acquire()` suspends indefinitely on the emptied queue rather than
raising, `initialize()` re-runs (and succeeds whenever the factory does),
and `release()` returns normally. -/
theorem C3_amended_post_shutdown (fails fails2 : Server → Bool)
    (p : GenericMCPServerPool) (g : Nat → Server)
    (f : Nat → Except PyError Server) (s : Server)
    (hf : ∀ i, f i = .ok (g i)) :
    (p.shutdown fails).1.all_servers = [] ∧
    (p.shutdown fails).1.available_servers.items = [] ∧
    (p.shutdown fails).1.acquire = none ∧
    ((p.shutdown fails).1.init fails2 f).1 = .ok () ∧
    ∃ out, (p.shutdown fails).1.release fails2 (some s) true = .ok out := by
  refine ⟨rfl, rfl, rfl, ?_, release_total fails2 _ (some s) true⟩
  have h := initLoop_ok f g p.pool_size 0 []
    { items := [], maxsize := p.pool_size }
    (fun j _ => hf (0 + j)) (by simp)
  simp only [GenericMCPServerPool.shutdown, GenericMCPServerPool.init]
  rw [h]

/-- Witness for the amended C3 on a concrete capacity-1 pool. -/
theorem C3_amended_post_shutdown_witness :
    ((GenericMCPServerPool.shutdown noCleanupFail
        { pool_size := 1
          available_servers := { items := [0], maxsize := 1 }
          all_servers := [0] }).1.init noCleanupFail okFactory).1 = .ok () ∧
    (GenericMCPServerPool.shutdown noCleanupFail
        { pool_size := 1
          available_servers := { items := [0], maxsize := 1 }
          all_servers := [0] }).1.acquire = none := by
  have h := C3_amended_post_shutdown noCleanupFail noCleanupFail
    { pool_size := 1
      available_servers := { items := [0], maxsize := 1 }
      all_servers := [0] }
    (fun i => i) okFactory 0 (fun i => rfl)
  exact ⟨h.2.2.2.1, h.2.2.1⟩

/-! ### The queue-bound invariant over whole lifetimes (C5) -/

/-- Capacity fields agree with `n` and the queue holds at most `n`
servers. -/
def SizeInv (n : Nat) (p : GenericMCPServerPool) : Prop :=
  p.pool_size = n ∧ p.available_servers.maxsize = n ∧
  p.available_servers.items.length ≤ n

theorem put_nowait_some_inv {q : BQueue} {s : Server} {q2 : BQueue}
    (h : q.put_nowait s = some q2) :
    q2.items = q.items ++ [s] ∧ q2.maxsize = q.maxsize ∧
    q.items.length < q.maxsize := by
  unfold BQueue.put_nowait at h
  split at h
  · injection h with h2
    subst h2
    exact ⟨rfl, rfl, by assumption⟩
  · cases h

/-- The creation loop never overfills the queue and keeps its bound. -/
theorem initLoop_bound (f : Nat → Except PyError Server) :
    ∀ (fuel start : Nat) (created : List Server) (q : BQueue),
      q.items.length ≤ q.maxsize →
      (initLoop f fuel start created q).2.2.maxsize = q.maxsize ∧
      (initLoop f fuel start created q).2.2.items.length ≤ q.maxsize := by
  intro fuel
  induction fuel with
  | zero => intro start created q h; exact ⟨rfl, h⟩
  | succ fuel ih =>
    intro start created q h
    cases hf : f start with
    | error e =>
      simp only [initLoop, hf]
      exact ⟨trivial, h⟩
    | ok s =>
      cases hq : q.put_nowait s with
      | none =>
        simp only [initLoop, hf, hq]
        exact ⟨trivial, h⟩
      | some q2 =>
        obtain ⟨h1, h2, h3⟩ := put_nowait_some_inv hq
        have hrec := ih (start + 1) (created ++ [s]) q2
          (by rw [h1, h2]; simp; omega)
        simp only [initLoop, hf, hq]
        exact ⟨hrec.1.trans h2, h2 ▸ hrec.2⟩

/-- Every single pool call preserves the queue bound. -/
theorem applyOp_sizeInv (fails : Server → Bool) (n : Nat)
    (p : GenericMCPServerPool) (op : PoolOp) (h : SizeInv n p) :
    SizeInv n (applyOp fails p op) := by
  obtain ⟨h1, h2, h3⟩ := h
  unfold SizeInv at *
  cases op with
  | acquireOp =>
    simp only [applyOp]
    cases hacq : p.acquire with
    | none => exact ⟨h1, h2, h3⟩
    | some sp =>
      obtain ⟨s, p2⟩ := sp
      unfold GenericMCPServerPool.acquire BQueue.get_nowait at hacq
      cases hi : p.available_servers.items with
      | nil =>
        rw [hi] at hacq
        cases hacq
      | cons a rest =>
        rw [hi] at hacq
        have hp2 : p2 = { p with available_servers :=
            { items := rest, maxsize := p.available_servers.maxsize } } := by
          have := hacq
          injection this with h4
          injection h4 with h5 h6
          exact h6.symm
        subst hp2
        refine ⟨h1, h2, ?_⟩
        rw [hi] at h3
        simp only [List.length_cons] at h3
        exact Nat.le_of_succ_le (Nat.succ_le_of_lt (Nat.lt_of_lt_of_le
          (Nat.lt_succ_of_le (Nat.le_refl _)) h3))
  | releaseOp server is_healthy =>
    simp only [applyOp]
    rcases server with _ | s
    · exact ⟨h1, h2, h3⟩
    · rcases is_healthy with _ | _
      · rw [release_unhealthy_eq]
        exact ⟨(removeTracked_pool_size p s).trans h1,
          by rw [removeTracked_available]; exact h2,
          by rw [removeTracked_available]; exact h3⟩
      · by_cases hroom :
          p.available_servers.items.length < p.available_servers.maxsize
        · rw [release_healthy_room fails p s hroom]
          refine ⟨h1, h2, ?_⟩
          simp only [List.length_append, List.length_cons, List.length_nil]
          omega
        · rw [release_healthy_full fails p s hroom]
          exact ⟨(removeTracked_pool_size p s).trans h1,
            by rw [removeTracked_available]; exact h2,
            by rw [removeTracked_available]; exact h3⟩
  | initOp f =>
    simp only [applyOp, GenericMCPServerPool.init]
    have hb := initLoop_bound f p.pool_size 0 [] p.available_servers
      (by rw [h2]; exact h3)
    rcases hres : initLoop f p.pool_size 0 [] p.available_servers with
      ⟨res, created, qf⟩
    rw [hres] at hb
    cases res with
    | ok u =>
      exact ⟨h1, hb.1.trans h2, hb.2.trans (le_of_eq h2)⟩
    | error e =>
      exact ⟨h1, hb.1.trans h2, Nat.zero_le n⟩
  | shutdownOp =>
    exact ⟨h1, h1, Nat.zero_le n⟩

theorem runOps_sizeInv (fails : Server → Bool) (n : Nat) :
    ∀ (ops : List PoolOp) (p : GenericMCPServerPool),
      SizeInv n p → SizeInv n (runOps fails p ops) := by
  intro ops
  induction ops with
  | nil => intro p h; exact h
  | cons op rest ih =>
    intro p h
    exact ih _ (applyOp_sizeInv fails n p op h)

/-- C5 amended: at every point in the pool's lifetime — i.e. after every
sequence of calls on a freshly constructed pool of capacity `n`, double
releases included — `0 ≤ |available| ≤ capacity` holds; in particular
double-releasing the same server with `healthy = true` never pushes
`|available|` past the capacity (the bounded queue refuses the put).  The
claim's inequalities `|available| ≤ |tracked|` and `|tracked| ≤ capacity`
do not hold at every point (see the counterexample) and are dropped. -/
theorem C5_amended_available_bounded (fails : Server → Bool) (n : Nat)
    (ops : List PoolOp) :
    (runOps fails (mkGenericPool n) ops).available_servers.items.length ≤ n :=
  (runOps_sizeInv fails n ops (mkGenericPool n) ⟨rfl, rfl, Nat.zero_le n⟩).2.2

/-- A lifetime of a capacity-2 pool with a double healthy release: after
initialize, two acquires, a double release of server 0 and a release of
server 1, the full queue makes the pool dispose server 1 and drop it from
the tracked list while the queue still holds server 0 twice. -/
def doubleReleaseTrace : List PoolOp :=
  [.initOp okFactory, .acquireOp, .acquireOp,
   .releaseOp (some 0) true, .releaseOp (some 0) true,
   .releaseOp (some 1) true]

/-- A lifetime of a capacity-2 pool in which `initialize()` is run a
second time after both servers were acquired: the second run tracks two
further servers, so `|tracked| = 4 > 2 = capacity`. -/
def reInitTrace : List PoolOp :=
  [.initOp okFactory, .acquireOp, .acquireOp, .initOp okFactory]

/-- C5 counterexample: the invariant `|available| ≤ |tracked| ≤ capacity`
is violated at reachable states of a capacity-2 pool: after
`doubleReleaseTrace` the queue holds 2 servers while only 1 is tracked,
and after `reInitTrace` 4 servers are tracked. -/
theorem C5_counterexample :
    (¬ (runOps noCleanupFail (mkGenericPool 2)
          doubleReleaseTrace).available_servers.items.length ≤
        (runOps noCleanupFail (mkGenericPool 2)
          doubleReleaseTrace).all_servers.length) ∧
    (¬ (runOps noCleanupFail (mkGenericPool 2)
          reInitTrace).all_servers.length ≤ 2) := by
  decide

end MCPPool
